import Mathlib

/-!
# Verification of the IBKR portfolio wrapper

A shallow embedding of the repository (files `api.py`, `contracts.py`,
`portfolios.py`, `accounts.py`) together with proofs about the embedded
operations.

Modelling conventions:
* Python dicts become association lists `List (String × _)`; Python dict
  keys are unique and iteration follows insertion order, which an
  association list with the same key order reproduces.
* Python floats become rationals `ℚ`; `int(x)` (truncation toward zero)
  becomes `truncQ`.
* A Python method that mutates its object and can raise becomes a
  function returning the outcome together with the object state at
  method exit, so that partial mutation (or its absence) is visible.
* Exceptions raised by the code are named with the error vocabulary of
  the specification: the `ValueError` for a blank symbol is
  `InvalidSymbol`, the `ValueError` for a wrong security type is
  `TypeMismatch`, the `KeyError` on the quote dict is `MissingQuote`, the
  `ZeroDivisionError` is `DivisionByZero`, the `ValueError` raised by
  `list.remove(None)` on a missing symbol is `NotFound`, and the
  `KeyError` on the target-weight dict (a case the specification does
  not name) is `MissingTargetWeight`.
-/

namespace IBKR

/-- Error vocabulary for the failures the embedded code can raise. -/
inductive ErrorKind where
  | InvalidSymbol
  | TypeMismatch
  | NotFound
  | MissingQuote
  | DivisionByZero
  | MissingTargetWeight
  deriving DecidableEq, Repr

/-- `ibapi.contract.Contract` restricted to the four fields the
repository sets and reads: `symbol`, `secType`, `currency`,
`exchange`. -/
structure Contract where
  symbol : String
  secType : String
  currency : String
  exchange : String
  deriving DecidableEq, Repr

/-- Truncation of a rational toward zero: the behaviour of the Python
`int(...)` cast on line 93 of `portfolios.py` (floor for non-negative
values, ceiling for negative ones, e.g. `int(-2.7) = -2`). -/
def truncQ (q : ℚ) : ℤ :=
  if 0 ≤ q then ⌊q⌋ else ⌈q⌉

/-- Association-list lookup standing for a Python dict access `d[k]`:
`none` models a `KeyError`. -/
def dlookup (m : List (String × ℚ)) (k : String) : Option ℚ :=
  m.lookup k

/-- `IBPortfolio.calc_order_quantities` (`portfolios.py` lines 82-94):
for every key of `w_init`, in iteration order, computes
`(w_new[key] - w_init[key]) * nav / quotes[key]` and truncates toward
zero via `int(...)`.  The Python expression evaluates `w_new[key]`
first, then `w_init[key]`, then the division, so a missing target
weight is raised before a missing or zero quote of the same key, and
the first failing key aborts the whole computation (the dict built so
far is discarded when the exception propagates). -/
def calc_order_quantities (w_init w_new quotes : List (String × ℚ)) (nav : ℚ) :
    Except ErrorKind (List (String × ℤ)) :=
  match w_init with
  | [] => .ok []
  | (key, wi) :: rest =>
    match dlookup w_new key with
    | none => .error .MissingTargetWeight
    | some wn =>
      match dlookup quotes key with
      | none => .error .MissingQuote
      | some q =>
        if q = 0 then .error .DivisionByZero
        else
          match calc_order_quantities rest w_new quotes nav with
          | .error e => .error e
          | .ok qs => .ok ((key, truncQ ((wn - wi) * nav / q)) :: qs)

/-- An `ibapi.order.Order` holding the four fields
`IBPortfolio.prepare_orders` populates. -/
structure Order where
  orderId : ℤ
  totalQuantity : ℤ
  orderType : String
  action : String
  deriving DecidableEq, Repr

/-- The order-building loop of `IBPortfolio.prepare_orders`
(`portfolios.py` lines 106-118): for each `(key, quantity)` pair in
iteration order it reads the current `connection.nextorderId` into the
order and increments the counter, sets `totalQuantity` to the absolute
value of the quantity and `orderType` uniformly, and inserts the order
into the result — with action `BUY` for a positive and `SELL` for a
negative quantity — only when the quantity is nonzero (the id counter
advances even for the skipped zero-quantity keys).  Returns the orders
together with the final `nextorderId`. -/
def prepare_orders_loop :
    List (String × ℤ) → ℤ → String → List (String × Order) × ℤ
  | [], nextorderId, _ => ([], nextorderId)
  | (key, value) :: rest, nextorderId, order_type =>
    let order : Order :=
      { orderId := nextorderId
        totalQuantity := |value|
        orderType := order_type
        action := if 0 < value then "BUY" else "SELL" }
    let rs := prepare_orders_loop rest (nextorderId + 1) order_type
    if value ≠ 0 then ((key, order) :: rs.1, rs.2) else (rs.1, rs.2)

/-- `IBPortfolio.prepare_orders` (`portfolios.py` lines 96-118):
computes the order quantities and then runs the order-building loop on
them. -/
def prepare_orders (w_init w_new quotes : List (String × ℚ)) (nav : ℚ)
    (nextorderId : ℤ) (order_type : String) :
    Except ErrorKind (List (String × Order) × ℤ) :=
  (calc_order_quantities w_init w_new quotes nav).map
    (fun qs => prepare_orders_loop qs nextorderId order_type)

/-- `IBContracts.get_symbols` (`contracts.py` lines 59-60). -/
def get_symbols (contract_list : List Contract) : List String :=
  contract_list.map (fun c => c.symbol)

/-- `IBContracts.get_contract` (`contracts.py` lines 50-57): when
`symbol` occurs in `get_symbols`, `symbols.index(symbol)` is the index
of its first occurrence and the contract at that index is returned,
i.e. the first contract whose symbol matches; otherwise the method
prints a message and returns `None`. -/
def get_contract : List Contract → String → Option Contract
  | [], _ => none
  | c :: rest, symbol =>
    if c.symbol = symbol then some c else get_contract rest symbol

/-- The `IBContracts` constructor and `contract_list` setter
(`contracts.py` lines 30-44): the only validation is that every element
is a `Contract` instance — which the element type carries here — so any
list of contracts is accepted; in particular no security-type check is
performed on construction. -/
def IBContracts.ofList (contract_list : List Contract) : List Contract :=
  contract_list

/-- `IBContracts.remove_contract` (`contracts.py` lines 46-48):
`self.contract_list.remove(self.get_contract(symbol))`.  When the
symbol is absent, `get_contract` returns `None` and `list.remove(None)`
raises `ValueError` (`NotFound`) with the list untouched; otherwise
`list.remove` deletes the first element equal to the fetched contract —
which is the first contract bearing the symbol, every earlier element
having a different symbol. -/
def remove_contract (contract_list : List Contract) (symbol : String) :
    Except ErrorKind Unit × List Contract :=
  match get_contract contract_list symbol with
  | none => (.error .NotFound, contract_list)
  | some c => (.ok (), contract_list.erase c)

/-- `EquityContracts.add_contract` (`contracts.py` lines 82-87): appends
the contract when its `secType` is `STK`, otherwise raises `ValueError`
(`TypeMismatch`) before touching the list. -/
def EquityContracts.add_contract (contract_list : List Contract)
    (contract : Contract) : Except ErrorKind Unit × List Contract :=
  if contract.secType = "STK" then (.ok (), contract_list ++ [contract])
  else (.error .TypeMismatch, contract_list)

/-- `FXContracts.add_contract` (`contracts.py` lines 115-120): appends
the contract when its `secType` is `CASH`, otherwise raises
`ValueError` (`TypeMismatch`) before touching the list. -/
def FXContracts.add_contract (contract_list : List Contract)
    (contract : Contract) : Except ErrorKind Unit × List Contract :=
  if contract.secType = "CASH" then (.ok (), contract_list ++ [contract])
  else (.error .TypeMismatch, contract_list)

/-- The whitespace characters removed by Python `str.strip()` (ASCII
range). -/
def isPySpace (c : Char) : Bool :=
  c = ' ' || c = '\t' || c = '\n' || c = '\r' || c = '\x0b' || c = '\x0c'

/-- The check `not symbol.strip()` of `contracts.py` lines 94 and 127:
true exactly when the string is empty or consists of whitespace only. -/
def isBlankSymbol (s : String) : Bool :=
  s.data.all isPySpace

/-- `EquityContracts.add_contract_from_symbol` (`contracts.py` lines
89-106): rejects a blank or whitespace-only symbol with `ValueError`
(`InvalidSymbol`), otherwise builds a contract with `secType = STK` and
the given symbol, currency and exchange (the Python defaults are
`USD` and `SMART`) and delegates to `add_contract`. -/
def EquityContracts.add_contract_from_symbol (contract_list : List Contract)
    (symbol currency exchange : String) :
    Except ErrorKind Unit × List Contract :=
  if isBlankSymbol symbol then (.error .InvalidSymbol, contract_list)
  else EquityContracts.add_contract contract_list
    { symbol := symbol, secType := "STK", currency := currency, exchange := exchange }

/-- `FXContracts.add_contract_from_symbol` (`contracts.py` lines
122-139): same shape with `secType = CASH` (Python defaults `USD` and
`IDEALPRO`). -/
def FXContracts.add_contract_from_symbol (contract_list : List Contract)
    (symbol currency exchange : String) :
    Except ErrorKind Unit × List Contract :=
  if isBlankSymbol symbol then (.error .InvalidSymbol, contract_list)
  else FXContracts.add_contract contract_list
    { symbol := symbol, secType := "CASH", currency := currency, exchange := exchange }

/-- Class-consistent membership of an equity registry: every member is
a stock contract. -/
def equity_invariant (contract_list : List Contract) : Prop :=
  ∀ c ∈ contract_list, c.secType = "STK"

/-- Class-consistent membership of an FX registry: every member is a
cash contract. -/
def fx_invariant (contract_list : List Contract) : Prop :=
  ∀ c ∈ contract_list, c.secType = "CASH"

/-- The `IBapi._nextreqId` field (`api.py` line 27), initialised to
`0`; an `Option` state keeps the property's `None` branch faithful. -/
def initial_nextreqId : Option ℕ := some 0

/-- The `IBapi.nextreqId` property (`api.py` lines 37-44): returns the
current value of `_nextreqId` and advances the field — to `0` when it
was `None`, by one otherwise. -/
def nextreqId : Option ℕ → Option ℕ × Option ℕ
  | none => (none, some 0)
  | some n => (some n, some (n + 1))

/-- The state of `_nextreqId` after `k` calls to `nextreqId` in a
session, starting from the initial state. -/
def nextreqId_state : ℕ → Option ℕ
  | 0 => initial_nextreqId
  | k + 1 => (nextreqId (nextreqId_state k)).2

/-- The id returned by the `(k+1)`-st call to `nextreqId` in a
session. -/
def nextreqId_call (k : ℕ) : Option ℕ :=
  (nextreqId (nextreqId_state k)).1

/-- The request ids `EquityPortfolio.request_market_data`
(`portfolios.py` lines 183-193) hands to the broker: one `nextreqId`
per requested symbol, threading the `_nextreqId` state through the
loop. -/
def market_req_ids : List String → Option ℕ → List (Option ℕ) × Option ℕ
  | [], s => ([], s)
  | _ :: rest, s =>
    let r := nextreqId s
    let rs := market_req_ids rest r.2
    (r.1 :: rs.1, rs.2)

/-- The request ids `EquityPortfolio.request_historical_data`
(`portfolios.py` lines 210-216) hands to the broker: the loop header
`for reqId, contract in enumerate(self.contracts.contract_list)` with
`reqId = reqId + 1` numbers the requests `1..n` on every call,
independently of the `nextreqId` counter. -/
def hist_req_ids (contract_list : List Contract) : List ℕ :=
  (List.range contract_list.length).map (fun i => i + 1)

/-- Timed model of `EquityPortfolio.request_market_data`
(`portfolios.py` lines 173-195).  The vendor callback thread fills the
shared buffer `connection.data_current` over time; `dataCurrentAt t`
abstracts its contents `t` seconds after the call starts.  For each
symbol the source issues `reqMktData`, executes `time.sleep(1)`, and
copies the buffer: the read happens exactly one second after the
request was issued, whatever ticks (possibly none) have arrived by
then — no terminal condition is consulted. -/
def request_market_data (symbols : List String)
    (dataCurrentAt : ℕ → List (String × ℚ)) (t0 : ℕ) :
    List (String × List (String × ℚ)) :=
  match symbols with
  | [] => []
  | s :: rest =>
    (s, dataCurrentAt (t0 + 1)) :: request_market_data rest dataCurrentAt (t0 + 1)

/-- A stock contract with symbol `A`, as `add_contract_from_symbol`
would build it. -/
def stkA : Contract :=
  { symbol := "A", secType := "STK", currency := "USD", exchange := "SMART" }

/-- A second, distinct stock contract with the same symbol `A`. -/
def stkA2 : Contract :=
  { symbol := "A", secType := "STK", currency := "CHF", exchange := "SMART" }

/-- A cash (FX) contract with symbol `A`. -/
def cashA : Contract :=
  { symbol := "A", secType := "CASH", currency := "USD", exchange := "IDEALPRO" }

/-- A contract found by `get_contract` under some symbol is a member of
the list and bears exactly that symbol. -/
theorem get_contract_mem_symbol (contract_list : List Contract) (s : String)
    (c : Contract) (h : get_contract contract_list s = some c) :
    c ∈ contract_list ∧ c.symbol = s := by
  induction contract_list with
  | nil => simp [get_contract] at h
  | cons d rest ih =>
    rw [get_contract] at h
    by_cases hd : d.symbol = s
    · rw [if_pos hd] at h
      exact ⟨(Option.some_injective _ h) ▸ List.mem_cons_self ..,
        (Option.some_injective _ h) ▸ hd⟩
    · rw [if_neg hd] at h
      exact ⟨List.mem_cons_of_mem _ (ih h).1, (ih h).2⟩

/-- After appending a contract, looking its symbol up succeeds (with
the first contract in the list bearing that symbol). -/
theorem get_contract_append_last (contract_list : List Contract) (c : Contract) :
    ∃ d, get_contract (contract_list ++ [c]) c.symbol = some d := by
  induction contract_list with
  | nil => exact ⟨c, by simp [get_contract]⟩
  | cons e rest ih =>
    by_cases he : e.symbol = c.symbol
    · exact ⟨e, by simp [get_contract, he]⟩
    · obtain ⟨d, hd⟩ := ih
      exact ⟨d, by simpa [get_contract, he] using hd⟩

/-- The `_nextreqId` field holds `some k` after `k` calls. -/
theorem nextreqId_state_eq (k : ℕ) : nextreqId_state k = some k := by
  induction k with
  | zero => rfl
  | succ k ih => rw [nextreqId_state, ih]; rfl

/-- C1: for every weight maps, quote map and nav whose required lookups
succeed with nonzero quotes, `calc_order_quantities` maps every key of
`w_init` to `(w_new[key] - w_init[key]) * nav / quotes[key]` truncated
toward zero; in particular `w_init = {A: 0.5}`, `w_new = {A: 0.8}`,
`quotes = {A: 10}`, `nav = 1000` gives `{A: 30}`, and
`w_new = {A: 0.53}` gives `{A: 3}`. -/
theorem calc_order_quantities_spec :
    (∀ w_init w_new quotes : List (String × ℚ), ∀ nav : ℚ,
      (∀ p ∈ w_init, ∃ wn q, dlookup w_new p.1 = some wn ∧
          dlookup quotes p.1 = some q ∧ q ≠ 0) →
      calc_order_quantities w_init w_new quotes nav =
        .ok (w_init.map fun p =>
          (p.1, truncQ (((dlookup w_new p.1).getD 0 - p.2) * nav /
            (dlookup quotes p.1).getD 0)))) ∧
    calc_order_quantities [("A", 1/2)] [("A", 4/5)] [("A", 10)] 1000 = .ok [("A", 30)] ∧
    calc_order_quantities [("A", 1/2)] [("A", 53/100)] [("A", 10)] 1000 = .ok [("A", 3)] := by
  refine ⟨?_, ?_, ?_⟩
  · intro w_init w_new quotes nav h
    induction w_init with
    | nil => rfl
    | cons p rest ih =>
      obtain ⟨key, wi⟩ := p
      obtain ⟨wn, q, hwn, hq, hq0⟩ := h _ (List.mem_cons_self ..)
      have hrest := ih (fun p hp => h p (List.mem_cons_of_mem _ hp))
      simp only [calc_order_quantities, hwn, hq, if_neg hq0, hrest, List.map_cons,
        Option.getD_some]
  · norm_num [calc_order_quantities, dlookup, List.lookup, truncQ]
  · norm_num [calc_order_quantities, dlookup, List.lookup, truncQ]

/-- Witness for C1 at the concrete input `w_init = {B: 0.25}`,
`w_new = {B: 0.75}`, `quotes = {B: 5}`, `nav = 100`. -/
theorem calc_order_quantities_spec_witness :
    calc_order_quantities [("B", 1/4)] [("B", 3/4)] [("B", 5)] 100 =
      .ok ([("B", (1:ℚ)/4)].map fun p =>
        (p.1, truncQ (((dlookup [("B", 3/4)] p.1).getD 0 - p.2) * 100 /
          (dlookup [("B", 5)] p.1).getD 0))) :=
  calc_order_quantities_spec.1 [("B", 1/4)] [("B", 3/4)] [("B", 5)] 100 (by
    intro p hp
    rw [List.mem_singleton] at hp
    subst hp
    exact ⟨3/4, 5, rfl, rfl, by norm_num⟩)

/-- C5: when every key of `w_init` has a target weight and every
present quote is nonzero but some key of `w_init` has no quote, the
computation fails with `MissingQuote`; when every key has a target
weight and a quote but some key's quote is zero, it fails with
`DivisionByZero`. -/
theorem calc_order_quantities_errors :
    ∀ w_init w_new quotes : List (String × ℚ), ∀ nav : ℚ,
      (∀ p ∈ w_init, (dlookup w_new p.1).isSome) →
      ((∀ p ∈ w_init, ∀ q, dlookup quotes p.1 = some q → q ≠ 0) →
        (∃ p ∈ w_init, dlookup quotes p.1 = none) →
        calc_order_quantities w_init w_new quotes nav = .error .MissingQuote) ∧
      ((∀ p ∈ w_init, (dlookup quotes p.1).isSome) →
        (∃ p ∈ w_init, dlookup quotes p.1 = some 0) →
        calc_order_quantities w_init w_new quotes nav = .error .DivisionByZero) := by
  intro w_init w_new quotes nav
  induction w_init with
  | nil =>
    intro _
    constructor <;> · rintro _ ⟨p, hp, _⟩; exact absurd hp (List.not_mem_nil p)
  | cons head rest ih =>
    obtain ⟨key, wi⟩ := head
    intro hnew
    obtain ⟨wn, hwn⟩ := Option.isSome_iff_exists.mp (hnew _ (List.mem_cons_self ..))
    have hnewr : ∀ p ∈ rest, (dlookup w_new p.1).isSome :=
      fun p hp => hnew p (List.mem_cons_of_mem _ hp)
    constructor
    · intro hq0 hex
      cases hq : dlookup quotes key with
      | none => simp [calc_order_quantities, hwn, hq]
      | some q =>
        have hqne : q ≠ 0 := hq0 _ (List.mem_cons_self ..) q hq
        have hexr : ∃ p ∈ rest, dlookup quotes p.1 = none := by
          obtain ⟨p, hp, hpn⟩ := hex
          rcases List.mem_cons.mp hp with h | h
          · rw [h] at hpn; rw [hq] at hpn; exact absurd hpn (by simp)
          · exact ⟨p, h, hpn⟩
        have hr := (ih hnewr).1 (fun p hp => hq0 p (List.mem_cons_of_mem _ hp)) hexr
        simp [calc_order_quantities, hwn, hq, hqne, hr]
    · intro hqt hex
      obtain ⟨q, hq⟩ := Option.isSome_iff_exists.mp (hqt _ (List.mem_cons_self ..))
      by_cases hq0 : q = 0
      · subst hq0
        simp [calc_order_quantities, hwn, hq]
      · have hexr : ∃ p ∈ rest, dlookup quotes p.1 = some 0 := by
          obtain ⟨p, hp, hpn⟩ := hex
          rcases List.mem_cons.mp hp with h | h
          · rw [h] at hpn; rw [hq] at hpn
            exact absurd (Option.some_injective _ hpn) (by exact fun e => hq0 e)
          · exact ⟨p, h, hpn⟩
        have hr := (ih hnewr).2 (fun p hp => hqt p (List.mem_cons_of_mem _ hp)) hexr
        simp [calc_order_quantities, hwn, hq, hq0, hr]

/-- Witness for C5 at the spec's concrete inputs: quotes missing key
`A` gives `MissingQuote`; `quotes = {A: 0}` gives `DivisionByZero`. -/
theorem calc_order_quantities_errors_witness :
    calc_order_quantities [("A", 1/2)] [("A", 4/5)] [] 1000 = .error .MissingQuote ∧
    calc_order_quantities [("A", 1/2)] [("A", 4/5)] [("A", 0)] 1000 =
      .error .DivisionByZero :=
  ⟨(calc_order_quantities_errors [("A", 1/2)] [("A", 4/5)] [] 1000 (by
      intro p hp; rw [List.mem_singleton] at hp; subst hp; rfl)).1
    (by intro p hp q hq; simp [dlookup] at hq)
    ⟨("A", 1/2), List.mem_singleton.mpr rfl, rfl⟩,
   (calc_order_quantities_errors [("A", 1/2)] [("A", 4/5)] [("A", 0)] 1000 (by
      intro p hp; rw [List.mem_singleton] at hp; subst hp; rfl)).2
    (by intro p hp; rw [List.mem_singleton] at hp; subst hp; rfl)
    ⟨("A", 1/2), List.mem_singleton.mpr rfl, rfl⟩⟩

/-- C6: the order-building loop produces an order exactly for the
symbols with nonzero quantity, with action `BUY` for positive and
`SELL` for negative quantities and total quantity the absolute value;
for quantities `{A: 0, B: -4, C: 7}` it produces exactly a `SELL` of 4
for `B` and a `BUY` of 7 for `C`, omitting `A`. -/
theorem prepare_orders_loop_spec :
    (∀ quantities : List (String × ℤ), ∀ n0 : ℤ, ∀ ot : String,
      (prepare_orders_loop quantities n0 ot).1.map
          (fun p => (p.1, p.2.action, p.2.totalQuantity)) =
        (quantities.filter fun p => p.2 != 0).map
          (fun p => (p.1, if 0 < p.2 then "BUY" else "SELL", |p.2|))) ∧
    (prepare_orders_loop [("A", 0), ("B", -4), ("C", 7)] 0 ("MKT")).1 =
      [("B", { orderId := 1, totalQuantity := 4, orderType := "MKT", action := "SELL" }),
       ("C", { orderId := 2, totalQuantity := 7, orderType := "MKT", action := "BUY" })] := by
  constructor
  · intro quantities n0 ot
    induction quantities generalizing n0 with
    | nil => rfl
    | cons p rest ih =>
      obtain ⟨key, value⟩ := p
      by_cases hv : value = 0
      · subst hv
        simpa [prepare_orders_loop, List.filter_cons] using ih (n0 + 1)
      · simpa [prepare_orders_loop, List.filter_cons, hv] using ih (n0 + 1)
  · decide

/-- C10: the order-building loop consumes one `nextorderId` per input
key — zero-quantity keys included — so the counter advances by the
number of keys, not by the number of orders; with quantities
`{A: 5, B: 0, C: 7}` and initial id 10 the created orders carry the
non-consecutive ids 10 and 12 while the counter ends at 13. -/
theorem prepare_orders_loop_id_consumption :
    (∀ quantities : List (String × ℤ), ∀ n0 : ℤ, ∀ ot : String,
      (prepare_orders_loop quantities n0 ot).2 = n0 + quantities.length) ∧
    ((prepare_orders_loop [("A", 5), ("B", 0), ("C", 7)] 10 ("MKT")).1.map
        (fun p => p.2.orderId) = [10, 12]) ∧
    (prepare_orders_loop [("A", 5), ("B", 0), ("C", 7)] 10 ("MKT")).2 = 13 := by
  refine ⟨?_, by decide, by decide⟩
  intro quantities n0 ot
  induction quantities generalizing n0 with
  | nil => simp [prepare_orders_loop]
  | cons p rest ih =>
    obtain ⟨key, value⟩ := p
    by_cases hv : value = 0 <;>
      · simp [prepare_orders_loop, hv, ih (n0 + 1)]
        ring

/-- C8: adding a contract whose security type mismatches the registry
class fails with `TypeMismatch`, and the registry contents after the
failed call are exactly the contents before it. -/
theorem add_contract_type_mismatch :
    ∀ contract_list : List Contract, ∀ c : Contract,
      (c.secType ≠ "STK" →
        EquityContracts.add_contract contract_list c =
          (.error .TypeMismatch, contract_list)) ∧
      (c.secType ≠ "CASH" →
        FXContracts.add_contract contract_list c =
          (.error .TypeMismatch, contract_list)) := by
  intro contract_list c
  exact ⟨fun h => by simp [EquityContracts.add_contract, h],
         fun h => by simp [FXContracts.add_contract, h]⟩

/-- Witness for C8: a `CASH` contract is rejected by the equity
registry and a `STK` contract by the FX registry, each leaving the
list untouched. -/
theorem add_contract_type_mismatch_witness :
    EquityContracts.add_contract [stkA] cashA = (.error .TypeMismatch, [stkA]) ∧
    FXContracts.add_contract [] stkA = (.error .TypeMismatch, []) :=
  ⟨(add_contract_type_mismatch [stkA] cashA).1 (by decide),
   (add_contract_type_mismatch [] stkA).2 (by decide)⟩

/-- C3 counterexample: the constructor validates only that the
elements are `Contract` instances, so an equity registry built from a
list containing a `CASH` contract is accepted and violates
class-consistent membership. -/
theorem equity_ofList_invariant_violation :
    ¬ equity_invariant (IBContracts.ofList [cashA]) := by
  intro h
  exact absurd (h cashA (List.mem_singleton.mpr rfl)) (by decide)

/-- C3 amended: `add` rejects mismatched security types and `remove`
only deletes, so both preserve class-consistent membership; the
construction-time validation part of the claim fails (see the
counterexample). -/
theorem registry_invariant_preserved :
    (∀ cl c, equity_invariant cl →
      equity_invariant (EquityContracts.add_contract cl c).2) ∧
    (∀ cl c, fx_invariant cl → fx_invariant (FXContracts.add_contract cl c).2) ∧
    (∀ cl s, equity_invariant cl → equity_invariant (remove_contract cl s).2) ∧
    (∀ cl s, fx_invariant cl → fx_invariant (remove_contract cl s).2) := by
  refine ⟨?_, ?_, ?_, ?_⟩
  · intro cl c h
    by_cases hc : c.secType = "STK"
    · intro d hd
      rw [EquityContracts.add_contract, if_pos hc] at hd
      rcases List.mem_append.mp hd with hd | hd
      · exact h d hd
      · rw [List.mem_singleton.mp hd]; exact hc
    · intro d hd
      rw [EquityContracts.add_contract, if_neg hc] at hd
      exact h d hd
  · intro cl c h
    by_cases hc : c.secType = "CASH"
    · intro d hd
      rw [FXContracts.add_contract, if_pos hc] at hd
      rcases List.mem_append.mp hd with hd | hd
      · exact h d hd
      · rw [List.mem_singleton.mp hd]; exact hc
    · intro d hd
      rw [FXContracts.add_contract, if_neg hc] at hd
      exact h d hd
  · intro cl s h d hd
    rw [remove_contract] at hd
    cases hg : get_contract cl s with
    | none => simp only [hg] at hd; exact h d hd
    | some c => simp only [hg] at hd; exact h d (List.erase_subset _ _ hd)
  · intro cl s h d hd
    rw [remove_contract] at hd
    cases hg : get_contract cl s with
    | none => simp only [hg] at hd; exact h d hd
    | some c => simp only [hg] at hd; exact h d (List.erase_subset _ _ hd)

/-- Witness for C3 amended: adding a second stock contract to a
one-stock equity registry keeps every member a stock. -/
theorem registry_invariant_preserved_witness :
    equity_invariant (EquityContracts.add_contract [stkA] stkA2).2 :=
  registry_invariant_preserved.1 [stkA] stkA2 (by
    intro c hc
    rw [List.mem_singleton.mp hc]
    rfl)

/-- C4 counterexample: `add_contract` performs no duplicate check, so
adding a second contract with symbol `A` to a registry already holding
symbol `A` succeeds and leaves two entries with the same symbol. -/
theorem duplicate_symbols_possible :
    (EquityContracts.add_contract [stkA] stkA2).1 = .ok () ∧
    get_symbols (EquityContracts.add_contract [stkA] stkA2).2 = ["A", "A"] ∧
    ¬ (get_symbols (EquityContracts.add_contract [stkA] stkA2).2).Nodup := by
  refine ⟨rfl, rfl, by decide⟩

/-- C4 amended: `add_contract` appends unconditionally once the
security-type check passes — symbol uniqueness is never enforced, so a
symbol added twice is held twice. -/
theorem add_contract_appends :
    ∀ cl : List Contract, ∀ c : Contract, c.secType = "STK" →
      (EquityContracts.add_contract cl c).2 = cl ++ [c] ∧
      get_symbols (EquityContracts.add_contract cl c).2 =
        get_symbols cl ++ [c.symbol] := by
  intro cl c h
  rw [EquityContracts.add_contract, if_pos h]
  exact ⟨rfl, by simp [get_symbols]⟩

/-- Witness for C4 amended at the concrete duplicate-symbol input. -/
theorem add_contract_appends_witness :
    (EquityContracts.add_contract [stkA] stkA2).2 = [stkA] ++ [stkA2] ∧
    get_symbols (EquityContracts.add_contract [stkA] stkA2).2 =
      get_symbols [stkA] ++ [stkA2.symbol] :=
  add_contract_appends [stkA] stkA2 (by decide)

/-- C7 counterexample: on an equity registry whose constructor-supplied
list already holds a `CASH` contract with symbol `A`,
`add_contract_from_symbol` for `A` succeeds, but the subsequent lookup
returns the pre-existing `CASH` contract, whose security type is not
the registry's `STK`. -/
theorem add_from_symbol_get_mismatch :
    (EquityContracts.add_contract_from_symbol [cashA] ("A") ("USD") ("SMART")).1 =
      .ok () ∧
    get_contract
      (EquityContracts.add_contract_from_symbol [cashA] ("A") ("USD") ("SMART")).2
      ("A") = some cashA ∧
    cashA.secType ≠ "STK" :=
  ⟨rfl, rfl, by decide⟩

/-- C7 amended: on a registry satisfying class-consistent membership,
adding any non-blank symbol and looking it up returns a contract with
that symbol and the registry's fixed security type `STK`; a blank or
whitespace-only symbol fails with `InvalidSymbol`, leaving the
registry unchanged. -/
theorem add_from_symbol_get_roundtrip :
    (∀ cl : List Contract, ∀ s currency exchange : String,
      equity_invariant cl → isBlankSymbol s = false →
      (EquityContracts.add_contract_from_symbol cl s currency exchange).1 = .ok () ∧
      ∃ c, get_contract
          (EquityContracts.add_contract_from_symbol cl s currency exchange).2 s =
          some c ∧
        c.symbol = s ∧ c.secType = "STK") ∧
    (∀ cl : List Contract, ∀ s currency exchange : String, isBlankSymbol s = true →
      EquityContracts.add_contract_from_symbol cl s currency exchange =
        (.error .InvalidSymbol, cl)) := by
  constructor
  · intro cl s currency exchange hinv hb
    rw [EquityContracts.add_contract_from_symbol,
      if_neg (by rw [hb]; exact Bool.false_ne_true)]
    rw [EquityContracts.add_contract, if_pos rfl]
    refine ⟨rfl, ?_⟩
    obtain ⟨d, hd⟩ := get_contract_append_last cl
      { symbol := s, secType := "STK", currency := currency, exchange := exchange }
    obtain ⟨hmem, hsym⟩ := get_contract_mem_symbol _ _ _ hd
    refine ⟨d, hd, hsym, ?_⟩
    rcases List.mem_append.mp hmem with hm | hm
    · exact hinv d hm
    · rw [List.mem_singleton.mp hm]
  · intro cl s currency exchange hb
    rw [EquityContracts.add_contract_from_symbol, if_pos hb]

/-- Witness for C7 amended: adding symbol `NVDA` to the empty equity
registry and looking it up. -/
theorem add_from_symbol_get_roundtrip_witness :
    (EquityContracts.add_contract_from_symbol [] ("NVDA") ("USD") ("SMART")).1 =
      .ok () ∧
    ∃ c, get_contract
        (EquityContracts.add_contract_from_symbol [] ("NVDA") ("USD") ("SMART")).2
        ("NVDA") = some c ∧ c.symbol = "NVDA" ∧ c.secType = "STK" :=
  add_from_symbol_get_roundtrip.1 [] ("NVDA") ("USD") ("SMART")
    (fun c hc => absurd hc (List.not_mem_nil c)) (by decide)

/-- C9 amended: every call to `nextreqId` in a session returns a fresh
non-negative id strictly greater than all earlier ones — the
`(k+1)`-st call returns `k`; the claim's further assertion that no id
handed to the broker is ever reused fails, because
`request_historical_data` numbers its requests independently (see the
counterexample). -/
theorem nextreqId_strictly_increasing :
    (∀ k : ℕ, nextreqId_call k = some k) ∧
    (∀ j k : ℕ, j < k → ∃ a b : ℕ,
      nextreqId_call j = some a ∧ nextreqId_call k = some b ∧ a < b) := by
  have hcall : ∀ k : ℕ, nextreqId_call k = some k := by
    intro k
    rw [nextreqId_call, nextreqId_state_eq]
    rfl
  exact ⟨hcall, fun j k hjk => ⟨j, k, hcall j, hcall k, hjk⟩⟩

/-- Witness for C9 amended: the first call returns a smaller id than
the second. -/
theorem nextreqId_strictly_increasing_witness :
    0 < 1 ∧ ∃ a b : ℕ, nextreqId_call 0 = some a ∧ nextreqId_call 1 = some b ∧ a < b :=
  ⟨Nat.zero_lt_one, nextreqId_strictly_increasing.2 0 1 Nat.zero_lt_one⟩

/-- C9 counterexample: in one session, a market-data request for two
symbols hands the broker ids 0 and 1 drawn from `nextreqId`, while a
historical-data request over a one-contract registry hands the broker
id 1 again — the same id serves two different requests. -/
theorem request_id_reuse :
    (market_req_ids [("X"), ("Y")] initial_nextreqId).1.filterMap (fun x => x) =
      [0, 1] ∧
    hist_req_ids [stkA] = [1] ∧
    ¬ (((market_req_ids [("X"), ("Y")] initial_nextreqId).1.filterMap (fun x => x)) ++
        hist_req_ids [stkA]).Nodup := by
  refine ⟨rfl, rfl, by decide⟩

/-- C2: code-bug evidence — after issuing a market-data request the
source reads the shared buffer exactly one second later, independent of
whether any tick (or terminal event) has arrived; in an environment
where the data arrives two seconds after the request, the returned
quote buffer is empty. -/
theorem request_market_data_fixed_delay :
    (∀ dataCurrentAt : ℕ → List (String × ℚ), ∀ t0 : ℕ,
      request_market_data [("X")] dataCurrentAt t0 =
        [(("X"), dataCurrentAt (t0 + 1))]) ∧
    request_market_data [("X")]
      (fun t => if 2 ≤ t then [(("CLOSE"), (10 : ℚ))] else []) 0 = [(("X"), [])] := by
  constructor
  · intro dataCurrentAt t0
    rfl
  · simp [request_market_data]

end IBKR
